import Mathlib

/-!
Verification of the `prometheus-carburanti-exporter` ingestion-and-join
pipeline: a shallow embedding of the cache (`cache.go`), the price-feed
parser (`parseRecord` / `refreshRecords`), the station-feed parser
(`updateStations`) and the join loop of `main`, followed by theorems
settling the specification's claims about them.

Network I/O is abstracted away: byte streams arrive as the list of
tokenized CSV rows (price feed, tokenization done by Go's `encoding/csv`
with `FieldsPerRecord = 5`) or as the list of raw lines (station feed,
which the source splits by hand).  Wall-clock instants are integers
(seconds); `time.Since e.Ts` at instant `now` is `now - e.Ts`.
-/

set_option autoImplicit false

namespace Carburanti

/-! ## Association-list model of Go maps -/

/-- Lookup in a Go map modelled as an association list. -/
def mapFind? {α β : Type} [DecidableEq α] (k : α) : List (α × β) → Option β
  | [] => none
  | (k', v) :: rest => if k = k' then some v else mapFind? k rest

/-- Go map assignment `m[k] = v`: replace the binding if present, else add it. -/
def mapSet {α β : Type} [DecidableEq α] (k : α) (v : β) : List (α × β) → List (α × β)
  | [] => [(k, v)]
  | (k', v') :: rest => if k = k' then (k, v) :: rest else (k', v') :: mapSet k v rest

/-! ## Models of the Go standard-library conversions used by the source -/

/-- Value of a nonempty, all-digit character list, else `none`. -/
def digitsToNat? (l : List Char) : Option Nat :=
  if l ≠ [] ∧ l.all Char.isDigit then
    some (l.foldl (fun a c => a * 10 + (c.toNat - 48)) 0)
  else none

/-- `strconv.ParseInt(s, 10, 64)`: optional sign, nonempty decimal digits,
value within the signed 64-bit range; `none` on any other input. -/
def goParseInt (s : String) : Option Int :=
  match s.toList with
  | [] => none
  | c :: rest =>
    let (neg, ds) : Bool × List Char :=
      if c = '-' then (true, rest)
      else if c = '+' then (false, rest)
      else (false, c :: rest)
    match digitsToNat? ds with
    | none => none
    | some n =>
      let v : Int := if neg then -(n : Int) else (n : Int)
      if v < -(2 ^ 63) ∨ (2 ^ 63 : Int) ≤ v then none else some v

/-- `strconv.ParseBool`: the twelve recognized literals, `none` otherwise. -/
def goParseBool (s : String) : Option Bool :=
  if s = "1" ∨ s = "t" ∨ s = "T" ∨ s = "TRUE" ∨ s = "true" ∨ s = "True" then some true
  else if s = "0" ∨ s = "f" ∨ s = "F" ∨ s = "FALSE" ∨ s = "false" ∨ s = "False" then some false
  else none

/-- Lower-case an ASCII letter, as Go's `lower`. -/
def lowerChar (c : Char) : Char :=
  if 'A' ≤ c ∧ c ≤ 'Z' then Char.ofNat (c.toNat + 32) else c

/-- Hexadecimal digit test (`0-9`, `a-f`, `A-F`). -/
def isHexDigit (c : Char) : Bool :=
  c.isDigit || ('a' ≤ lowerChar c && lowerChar c ≤ 'f')

/-- Value of a (possibly hexadecimal) digit character. -/
def hexVal (c : Char) : Nat :=
  if c.isDigit then c.toNat - 48 else (lowerChar c).toNat - 87

/-- The value `strconv.ParseFloat` produces, with the finite case kept as
the exact rational the token denotes (the rounding of that rational to the
nearest binary64 — including quiet underflow to zero — is not modelled, it
never affects parse success or failure) and the special values as
constructors. -/
inductive GoFloat where
  | finite (val : ℚ)
  | posInf
  | negInf
  | nan
  deriving Repr, DecidableEq

/-- Go's `special`, combined with `ParseFloat`'s whole-string check: the
case-insensitive `inf`/`infinity` with an optional sign, and the unsigned
case-insensitive `nan` (a signed `nan` is not recognized). -/
def special? (cs : List Char) : Option GoFloat :=
  match cs with
  | '+' :: r =>
    if (r.map lowerChar = ['i', 'n', 'f'] ∨ r.map lowerChar = ['i', 'n', 'f', 'i', 'n', 'i', 't', 'y'])
    then some GoFloat.posInf else none
  | '-' :: r =>
    if (r.map lowerChar = ['i', 'n', 'f'] ∨ r.map lowerChar = ['i', 'n', 'f', 'i', 'n', 'i', 't', 'y'])
    then some GoFloat.negInf else none
  | _ =>
    if (cs.map lowerChar = ['i', 'n', 'f'] ∨ cs.map lowerChar = ['i', 'n', 'f', 'i', 'n', 'i', 't', 'y'])
    then some GoFloat.posInf
    else if cs.map lowerChar = ['n', 'a', 'n'] then some GoFloat.nan
    else none

/-- State of `readFloat`'s mantissa scan: the integer-part and
fraction-part digits collected so far, whether a dot and whether an
underscore was seen. -/
structure FloatScan where
  intDigits : List Char
  fracDigits : List Char
  sawdot : Bool
  hasUnderscore : Bool
  deriving Repr

/-- `readFloat`'s mantissa loop: consume digits of the base, underscores
and at most one dot; stop at the first other character (a second dot
included), returning the state and the unconsumed remainder. -/
def scanMantissa (hex : Bool) : List Char → FloatScan → FloatScan × List Char
  | [], st => (st, [])
  | c :: rest, st =>
    if c = '_' then scanMantissa hex rest { st with hasUnderscore := true }
    else if c = '.' then
      if st.sawdot then (st, c :: rest)
      else scanMantissa hex rest { st with sawdot := true }
    else if (if hex then isHexDigit c else c.isDigit) then
      if st.sawdot then scanMantissa hex rest { st with fracDigits := st.fracDigits ++ [c] }
      else scanMantissa hex rest { st with intDigits := st.intDigits ++ [c] }
    else (st, c :: rest)

/-- `readFloat`'s exponent-digit loop: decimal digits and underscores,
with Go's saturation of the accumulator below 10000. -/
def scanExpDigits : List Char → Nat → Bool → Nat × Bool × List Char
  | [], e, und => (e, und, [])
  | c :: rest, e, und =>
    if c.isDigit then
      scanExpDigits rest (if e < 10000 then e * 10 + (c.toNat - 48) else e) und
    else if c = '_' then scanExpDigits rest e true
    else (e, und, c :: rest)

/-- `readFloat`'s exponent parse, after the exponent character: an
optional sign followed by at least one decimal digit (an underscore may
not come first), then digits and underscores. -/
def scanExponent? (cs : List Char) : Option (Int × Bool × List Char) :=
  let (esign, cs1) : Int × List Char :=
    match cs with
    | '+' :: r => (1, r)
    | '-' :: r => (-1, r)
    | _ => (1, cs)
  match cs1 with
  | [] => none
  | c :: _ =>
    if c.isDigit then
      let (e, und, rest) := scanExpDigits cs1 0 false
      some (esign * (e : Int), und, rest)
    else none

/-- The walk of Go's `underscoreOK` after the optional sign and base
prefix: `saw` is `0` after a digit (or the base prefix), `_` after an
underscore, `^` at the start and `!` after anything else; an underscore
must follow and be followed by a digit. -/
def underscoreScan : List Char → Char → Bool → Bool
  | [], saw, _ => saw ≠ '_'
  | c :: rest, saw, hex =>
    if c.isDigit ∨ (hex ∧ 'a' ≤ lowerChar c ∧ lowerChar c ≤ 'f') then
      underscoreScan rest '0' hex
    else if c = '_' then
      if saw = '0' then underscoreScan rest '_' hex else false
    else if saw = '_' then false
    else underscoreScan rest '!' hex

/-- Go's `underscoreOK`: underscores may appear only between digits, or
between a base prefix and a digit. -/
def underscoreOK (cs : List Char) : Bool :=
  let cs1 :=
    match cs with
    | '+' :: r => r
    | '-' :: r => r
    | _ => cs
  match cs1 with
  | '0' :: c :: r =>
    if lowerChar c = 'b' ∨ lowerChar c = 'o' ∨ lowerChar c = 'x' then
      underscoreScan r '0' (lowerChar c = 'x')
    else underscoreScan cs1 '^' false
  | _ => underscoreScan cs1 '^' false

/-- Smallest magnitude that `strconv.ParseFloat(·, 64)` rejects with
`ErrRange`: the correctly-rounded conversion overflows binary64 exactly
when the value's magnitude reaches `2^1024 - 2^970` (the tie at that
midpoint rounds to even, i.e. to infinity). -/
def floatOverflowBound : Nat := 2 ^ 1024 - 2 ^ 970

/-- Assemble the scanned mantissa and exponent into the token's exact
value: `digits × 10^(e - #frac)` for decimal, `digits × 2^(e - 4·#frac)`
for hexadecimal; reject magnitudes at or beyond the binary64 overflow
bound (Go's `ErrRange` on overflow — underflow is not an error). -/
def assembleFloat (neg hex : Bool) (st : FloatScan) (e : Int) : Option GoFloat :=
  let base : Nat := if hex then 16 else 10
  let digitsVal : Nat :=
    (st.intDigits ++ st.fracDigits).foldl (fun a c => a * base + hexVal c) 0
  let fracExp : Int := if hex then 4 * st.fracDigits.length else st.fracDigits.length
  let vbase : Nat := if hex then 2 else 10
  let totExp : Int := e - fracExp
  let (num, den) : Nat × Nat :=
    if 0 ≤ totExp then (digitsVal * vbase ^ totExp.toNat, 1)
    else (digitsVal, vbase ^ (-totExp).toNat)
  if floatOverflowBound * den ≤ num then none
  else some (GoFloat.finite (mkRat (if neg then -(num : Int) else (num : Int)) den))

/-- `strconv.ParseFloat(s, 64)`, following `atof.go`'s acceptance and
rejection exactly: the special values, an optional sign, a decimal or
(`0x`-prefixed, with a mandatory `p` exponent) hexadecimal mantissa with
at most one dot and at least one digit, an optional exponent whose first
character after its sign must be a digit, whole-string consumption, Go's
underscore placement rule, and the `ErrRange` overflow failure.  Only the
resulting value is abstracted, see `GoFloat`. -/
def goParseFloat (s : String) : Option GoFloat :=
  let cs := s.toList
  match special? cs with
  | some f => some f
  | none =>
    let (neg, cs1) : Bool × List Char :=
      match cs with
      | '-' :: r => (true, r)
      | '+' :: r => (false, r)
      | _ => (false, cs)
    let (hex, cs2) : Bool × List Char :=
      match cs1 with
      | '0' :: x :: c :: r => if lowerChar x = 'x' then (true, c :: r) else (false, cs1)
      | _ => (false, cs1)
    match scanMantissa hex cs2 ⟨[], [], false, false⟩ with
    | (st, rest) =>
      if st.intDigits = [] ∧ st.fracDigits = [] then none
      else
        match rest with
        | [] =>
          if hex then none
          else if st.hasUnderscore ∧ ¬underscoreOK cs then none
          else assembleFloat neg hex st 0
        | c :: r =>
          if lowerChar c = (if hex then 'p' else 'e') then
            match scanExponent? r with
            | none => none
            | some (e, eUnd, rest2) =>
              if rest2 = [] then
                if (st.hasUnderscore || eUnd) ∧ ¬underscoreOK cs then none
                else assembleFloat neg hex st e
              else none
          else none

/-- A parsed `time.Time` as the source uses it: a civil date-time, UTC. -/
structure GoTime where
  year : Nat
  month : Nat
  day : Nat
  hour : Nat
  minute : Nat
  second : Nat
  deriving Repr, DecidableEq

/-- Read one or two digits, greedily, as Go's `getnum(s, false)` does. -/
def num12? : List Char → Option (Nat × List Char)
  | [] => none
  | [c] => if c.isDigit then some (c.toNat - 48, []) else none
  | c1 :: c2 :: rest =>
    if c1.isDigit then
      if c2.isDigit then some ((c1.toNat - 48) * 10 + (c2.toNat - 48), rest)
      else some (c1.toNat - 48, c2 :: rest)
    else none

/-- Read exactly two digits, as Go's `getnum(s, true)` does. -/
def num2? : List Char → Option (Nat × List Char)
  | c1 :: c2 :: rest =>
    if c1.isDigit ∧ c2.isDigit then some ((c1.toNat - 48) * 10 + (c2.toNat - 48), rest)
    else none
  | _ => none

/-- Read exactly four digits (Go's `getnum4` for the `2006` year field). -/
def num4? : List Char → Option (Nat × List Char)
  | c1 :: c2 :: c3 :: c4 :: rest =>
    if c1.isDigit ∧ c2.isDigit ∧ c3.isDigit ∧ c4.isDigit then
      some (((((c1.toNat - 48) * 10 + (c2.toNat - 48)) * 10 + (c3.toNat - 48)) * 10
        + (c4.toNat - 48)), rest)
    else none
  | _ => none

/-- Consume one expected literal character. -/
def expectChar (c : Char) : List Char → Option (List Char)
  | [] => none
  | c' :: rest => if c' = c then some rest else none

/-- Gregorian leap-year rule, as Go's `isLeap`. -/
def isLeap (y : Nat) : Bool :=
  y % 4 = 0 && (y % 100 ≠ 0 || y % 400 = 0)

/-- Days in a month, as Go's `daysIn`. -/
def daysInMonth (y m : Nat) : Nat :=
  if m = 2 then (if isLeap y then 29 else 28)
  else if m = 4 ∨ m = 6 ∨ m = 9 ∨ m = 11 then 30
  else 31

/-- `time.Parse("2/1/2006 15:04:05", s)`: day and month as one or two
digits, four-digit year, one-or-two-digit hour, two-digit minute and
second, with Go's range validation, and no text may remain. -/
def goParseTime (s : String) : Option GoTime := do
  let cs := s.toList
  let (d, cs) ← num12? cs
  let cs ← expectChar '/' cs
  let mo_cs ← num12? cs
  let cs ← expectChar '/' mo_cs.2
  let (y, cs) ← num4? cs
  let cs ← expectChar ' ' cs
  let (h, cs) ← num12? cs
  let cs ← expectChar ':' cs
  let (mi, cs) ← num2? cs
  let cs ← expectChar ':' cs
  let (sec, cs) ← num2? cs
  let mo := mo_cs.1
  if cs = [] ∧ 1 ≤ mo ∧ mo ≤ 12 ∧ 1 ≤ d ∧ d ≤ daysInMonth y mo
      ∧ h ≤ 23 ∧ mi ≤ 59 ∧ sec ≤ 59 then
    some ⟨y, mo, d, h, mi, sec⟩
  else none

/-- Days since the Unix epoch of a civil date (Howard Hinnant's
`days_from_civil`, the standard algorithm; Go's `Date` internals agree). -/
def daysFromCivil (year : Int) (m d : Nat) : Int :=
  let y : Int := year - (if m ≤ 2 then 1 else 0)
  let era : Int := (if 0 ≤ y then y else y - 399) / 400
  let yoe : Int := y - era * 400
  let doy : Int := (153 * ((m : Int) + (if 2 < m then -3 else 9)) + 2) / 5 + (d : Int) - 1
  let doe : Int := yoe * 365 + yoe / 4 - yoe / 100 + doy
  era * 146097 + doe - 719468

/-- `time.Time.Unix()` for a UTC civil date-time. -/
def GoTime.unix (t : GoTime) : Int :=
  daysFromCivil (t.year : Int) t.month t.day * 86400
    + (t.hour : Int) * 3600 + (t.minute : Int) * 60 + (t.second : Int)

/-- `strconv.FormatInt(v, 10)`. -/
def formatInt (v : Int) : String := toString v

/-- `strconv.FormatBool`. -/
def formatBool (b : Bool) : String := if b then "true" else "false"

/-! ## Data model (`Record`, `Station`) -/

/-- One price observation, `type Record` of the source. -/
structure Record where
  idImpianto : Int
  carburante : String
  prezzo : GoFloat
  selfService : Bool
  dataComunicazione : GoTime
  deriving Repr, DecidableEq

/-- A station registry entry, `type Station` of the source.
`tipo` has Go type `StationType`, a string type. -/
structure Station where
  id : Int
  gestore : String
  bandiera : String
  tipo : String
  nome : String
  indirizzo : String
  comune : String
  provincia : String
  lat : String
  long : String
  deriving Repr, DecidableEq

/-! ## Record cache (`cache.go`) -/

/-- `type CacheEntry`: the accumulated records and the creation instant. -/
structure CacheEntry where
  records : List Record
  ts : Int
  deriving Repr, DecidableEq

/-- `type Cache` (the mutex only serializes access and has no sequential
semantics, so it is not modelled). -/
structure Cache where
  entries : List (String × CacheEntry)
  ttl : Int
  deriving Repr, DecidableEq

/-- `Cache.Get`: `none` models Go's `(nil, false)`; `some rs` models
`(rs, true)`.  An entry older than the TTL is reported absent without
being removed. -/
def Cache.get (c : Cache) (k : String) (now : Int) : Option (List Record) :=
  match mapFind? k c.entries with
  | some e => if c.ttl < now - e.ts then none else some e.records
  | none => none

/-- `Cache.Put`.  In the found branch the Go code appends to the entry
through its pointer, which updates the map's value.  In the not-found
branch the Go code builds `&CacheEntry{Records: []Record{v}, Ts: time.Now()}`
into the local variable `entry` but never assigns it into `c.entries`, so
the map is left unchanged; the construction is kept here (dead) to mirror
the source. -/
def Cache.put (c : Cache) (k : String) (v : Record) (now : Int) : Cache :=
  match mapFind? k c.entries with
  | some entry =>
    { c with entries := mapSet k { entry with records := entry.records ++ [v] } c.entries }
  | none =>
    let entry : CacheEntry := { records := [v], ts := now }
    let _ := entry
    c

/-- `NewCache`. -/
def NewCache (ttl : Int) : Cache :=
  { entries := [], ttl := ttl }

/-! ## Price feed parser (`parseRecord`, `refreshRecords`) -/

/-- `parseRecord`: exactly five fields, then integer id, verbatim fuel
type, float price, boolean self-service flag and `2/1/2006 15:04:05`
timestamp, each failure aborting the record. -/
def parseRecord (items : List String) : Except String Record :=
  if items.length ≠ 5 then
    .error ("expected 5 fields, got " ++ toString items.length)
  else
    match goParseInt (items.getD 0 "") with
    | none => .error "IDImpianto is not a numeric string"
    | some idImpianto =>
      match goParseFloat (items.getD 2 "") with
      | none => .error "Prezzo is not a float string"
      | some prezzo =>
        match goParseBool (items.getD 3 "") with
        | none => .error "SelfService is not a bool string"
        | some selfService =>
          match goParseTime (items.getD 4 "") with
          | none => .error "DataComunicazione is not a time string"
          | some dt =>
            .ok { idImpianto := idImpianto, carburante := items.getD 1 "",
                  prezzo := prezzo, selfService := selfService,
                  dataComunicazione := dt }

/-- The row check done by `encoding/csv` with `r.FieldsPerRecord = 5`:
a row whose field count differs from 5 is a read error. -/
def csvRead (row : List String) : Except String (List String) :=
  if row.length = 5 then .ok row else .error "wrong number of fields"

/-- The cache key `fmt.Sprintf("%d-%d", record.IDImpianto,
record.DataComunicazione.Unix())`. -/
def recordKey (r : Record) : String :=
  toString r.idImpianto ++ "-" ++ toString r.dataComunicazione.unix

/-- `refreshRecords` after the two header lines were skipped: read each
row (field count enforced by the reader), parse it, put the record into
the cache under `recordKey`, and accumulate; the first error aborts with
no records, but cache writes already performed persist (the cache is
shared state), so the cache is returned alongside either outcome. -/
def refreshRecords : List (List String) → Cache → Int → Except String (List Record) × Cache
  | [], c, _ => (.ok [], c)
  | row :: rest, c, now =>
    match csvRead row with
    | .error e => (.error e, c)
    | .ok items =>
      match parseRecord items with
      | .error e => (.error e, c)
      | .ok record =>
        let c' := c.put (recordKey record) record now
        let out := refreshRecords rest c' now
        (Except.map (fun recs => record :: recs) out.1, out.2)

/-! ## Station feed parser (`updateStations`) -/

/-- `strings.Split(s, ";")` on the character list: Go's split for a
single-character separator (an empty input yields one empty field). -/
def splitOnSemi : List Char → List (List Char)
  | [] => [[]]
  | c :: rest =>
    let r := splitOnSemi rest
    if c = ';' then [] :: r
    else
      match r with
      | [] => [[c]]
      | g :: gs => (c :: g) :: gs

/-- `strings.Split(line, ";")` returning strings. -/
def goSplitSemi (s : String) : List String :=
  (splitOnSemi s.toList).map (fun l => String.mk l)

/-- `strings.Join(elems, sep)`. -/
def goJoin : List String → String → String
  | [], _ => ""
  | [s], _ => s
  | s :: rest, sep => s ++ sep ++ goJoin rest sep

/-- The `switch len(items)` computing `address`: field 5 for a 10-field
row; for an 11-field row `strings.Join(items[5:6], " | ")`; any other
count is the fatal malformed-line error. -/
def stationAddress (items : List String) : Except String String :=
  match items.length with
  | 10 => .ok (items.getD 5 "")
  | 11 => .ok (goJoin ((items.drop 5).take 1) " | ")
  | n => .error ("malformed line with " ++ toString n ++ " fields instead of 10 or 11")

/-- The `Station{...}` literal built from a split row and its address. -/
def buildStation (id : Int) (items : List String) (address : String) : Station :=
  { id := id, gestore := items.getD 1 "", bandiera := items.getD 2 "",
    tipo := items.getD 3 "", nome := items.getD 4 "", indirizzo := address,
    comune := items.getD 6 "", provincia := items.getD 7 "",
    lat := items.getD 8 "", long := items.getD 9 "" }

/-- The scan loop of `updateStations` over the remaining lines.  `lineno`
starts at 1 and — as in the source — is never incremented, so the
`lineno == 1` header-skip branch hits every line.  The loop body mirrors
the source: split on `;`, skip an empty split result (with a warning),
parse the id (fatal on failure), warn on a duplicate id, compute the
address by field count (fatal outside 10 or 11) and assign into the map
(last write wins). -/
def updateStationsLoop : List String → Nat → List (Int × Station) →
    Except String (List (Int × Station))
  | [], _, stationMap => .ok stationMap
  | line :: rest, lineno, stationMap =>
    if lineno = 1 then
      -- skip header (the source forgets to increment lineno, so this
      -- branch is taken for every line)
      updateStationsLoop rest lineno stationMap
    else
      let items := goSplitSemi line
      if items.length = 0 then
        -- log.Printf("Warning: skipping empty line")
        updateStationsLoop rest lineno stationMap
      else
        match goParseInt (items.getD 0 "") with
        | none => .error "IDImpianto is not a numeric string"
        | some idImpianto =>
          -- a duplicate id only logs a warning
          match stationAddress items with
          | .error e => .error e
          | .ok address =>
            updateStationsLoop rest lineno
              (mapSet idImpianto (buildStation idImpianto items address) stationMap)

/-- `updateStations` on the fetched body, given as its list of lines. -/
def updateStations (lines : List String) : Except String (List (Int × Station)) :=
  updateStationsLoop lines 1 []

/-! ## Join-and-emit loop of `main` -/

/-- One gauge emission: the eight label values, in the order registered
on the `GaugeVec`, and the observed value `record.Prezzo`. -/
structure JoinedTuple where
  idImpianto : String
  carburante : String
  selfService : String
  nome : String
  tipo : String
  comune : String
  provincia : String
  bandiera : String
  value : GoFloat
  deriving Repr, DecidableEq

/-- The body of the `for _, record := range records` loop: look the
station up; on a hit take its five metadata fields, otherwise leave the
five local strings at their zero value `""`. -/
def joinRecord (stations : List (Int × Station)) (record : Record) : JoinedTuple :=
  let meta : String × String × String × String × String :=
    match mapFind? record.idImpianto stations with
    | some station =>
      (station.nome, station.tipo, station.comune, station.provincia, station.bandiera)
    | none => ("", "", "", "", "")
  { idImpianto := formatInt record.idImpianto,
    carburante := record.carburante,
    selfService := formatBool record.selfService,
    nome := meta.1, tipo := meta.2.1, comune := meta.2.2.1,
    provincia := meta.2.2.2.1, bandiera := meta.2.2.2.2,
    value := record.prezzo }

/-- The whole loop: one `Set` per record, in record order. -/
def joinAndEmit (stations : List (Int × Station)) : List Record → List JoinedTuple
  | [] => []
  | r :: rest => joinRecord stations r :: joinAndEmit stations rest

/-! ## Cache operation sequences (for the emptiness invariant) -/

/-- One external cache call, as issued by the refresh loop. -/
inductive CacheOp where
  | putOp (k : String) (v : Record) (now : Int)
  | getOp (k : String) (now : Int)
  deriving Repr

/-- Run a finite sequence of cache calls (`Get` does not mutate). -/
def runOps : Cache → List CacheOp → Cache
  | c, [] => c
  | c, CacheOp.putOp k v now :: rest => runOps (c.put k v now) rest
  | c, CacheOp.getOp _ _ :: rest => runOps c rest

/-! ## Helper lemmas -/

/-- View of `Except` as a sum, to decide equality of parse results. -/
def exceptToSum {ε α : Type} : Except ε α → ε ⊕ α
  | .error e => Sum.inl e
  | .ok a => Sum.inr a

instance {ε α : Type} [DecidableEq ε] [DecidableEq α] : DecidableEq (Except ε α) :=
  fun a b =>
    decidable_of_iff (exceptToSum a = exceptToSum b)
      (by cases a <;> cases b <;> simp [exceptToSum])

theorem put_preserves_empty (c : Cache) (k : String) (v : Record) (now : Int)
    (h : c.entries = []) : (c.put k v now).entries = [] := by
  simp [Cache.put, h, mapFind?]

theorem get_of_empty (c : Cache) (k : String) (now : Int)
    (h : c.entries = []) : c.get k now = none := by
  simp [Cache.get, h, mapFind?]

theorem runOps_preserves_empty (ops : List CacheOp) (c : Cache)
    (h : c.entries = []) : (runOps c ops).entries = [] := by
  induction ops generalizing c with
  | nil => simpa [runOps] using h
  | cons op rest ih =>
    cases op with
    | putOp k v now =>
      simp only [runOps]
      exact ih _ (put_preserves_empty c k v now h)
    | getOp k now =>
      simp only [runOps]
      exact ih _ h

theorem updateStationsLoop_header_skip (lines : List String)
    (m : List (Int × Station)) : updateStationsLoop lines 1 m = .ok m := by
  induction lines with
  | nil => rfl
  | cons l rest ih => simpa [updateStationsLoop] using ih

theorem drop_take_one_eq (l : List String) (n : Nat) (h : n < l.length) :
    (l.drop n).take 1 = [l.getD n ""] := by
  induction l generalizing n with
  | nil => simp at h
  | cons x xs ih =>
    cases n with
    | zero => simp
    | succ m =>
      have hm : m < xs.length := by simpa using h
      simpa using ih m hm

theorem getD_take_eq (l : List String) (m n : Nat) (h : n < m) :
    (l.take m).getD n "" = l.getD n "" := by
  induction l generalizing m n with
  | nil => simp
  | cons x xs ih =>
    cases m with
    | zero => omega
    | succ m' =>
      cases n with
      | zero => simp
      | succ n' =>
        have : n' < m' := by omega
        simpa using ih m' n' this

/-! ## Claims

`sampleRecordA`/`sampleRecordB` are concrete records used by the closed
cache theorems. -/

def sampleRecordA : Record :=
  { idImpianto := 1, carburante := "benzina", prezzo := GoFloat.finite (mkRat 1899 1000),
    selfService := false, dataComunicazione := ⟨2024, 1, 1, 0, 0, 0⟩ }

def sampleRecordB : Record :=
  { sampleRecordA with prezzo := GoFloat.finite 2, selfService := true }

/-- The record parsed from the row `101;benzina;1.899;true;5/3/2024 8:00:00`. -/
def sampleRecord101 : Record :=
  { idImpianto := 101, carburante := "benzina", prezzo := GoFloat.finite (mkRat 1899 1000),
    selfService := true, dataComunicazione := ⟨2024, 3, 5, 8, 0, 0⟩ }

/-- C1: the spec requires `put(k, r1)` on a cache with no entry for `k`
to create an entry (current time as creation timestamp, sequence `[r1]`),
a second `put(k, r2)` to append, and `get(k)` before the TTL to return
`[r1, r2]` with a found signal.  The source's `Put` builds the new
`CacheEntry` into a local variable and never stores it into `c.entries`,
so after the two puts the map is still empty and an in-TTL `get` reports
not-found: the claimed lifecycle fails at its first step. -/
theorem c1_put_never_creates_entry :
    (((NewCache 3600).put "1-0" sampleRecordA 0).put "1-0" sampleRecordB 0).get
        "1-0" 0 = none ∧
    (((NewCache 3600).put "1-0" sampleRecordA 0).put "1-0" sampleRecordB 0).entries
        = [] :=
  ⟨rfl, rfl⟩

/-- C2: the spec says only the first station-feed line is discarded and
every later row with 10 or 11 semicolon-separated fields and a numeric
first field ends up in the returned map under its id.  In the source the
header-skip counter `lineno` starts at 1 and is never incremented, so
every line is skipped: here a well-formed 10-field row for station 123
yields an empty map, in which station 123 is absent. -/
theorem c2_accepted_row_not_in_table :
    updateStations
        ["intestazione",
         "123;gestore;bandiera;Stradale;nome;indirizzo;comune;provincia;45.0;9.0"]
      = Except.ok [] :=
  rfl

set_option exponentiation.threshold 1200 in
set_option maxRecDepth 4000 in
/-- C4: the spec requires every parsed price record to be registered in
the cache under `"<id>-<unix timestamp>"` so that a later `get` finds it
(the audit-trail property, relied on by the failure-isolation sentence).
Because `Put` never stores a new entry, after a successful parse of one
well-formed row the record is returned but the cache is still empty: the
`get` on the record's key ("101-1709625600") reports not-found. -/
theorem c4_parsed_record_not_in_cache :
    (refreshRecords [["101", "benzina", "1.899", "true", "5/3/2024 8:00:00"]]
        (NewCache 3600) 0).1 = Except.ok [sampleRecord101] ∧
    (refreshRecords [["101", "benzina", "1.899", "true", "5/3/2024 8:00:00"]]
        (NewCache 3600) 0).2.get "101-1709625600" 0 = none ∧
    (refreshRecords [["101", "benzina", "1.899", "true", "5/3/2024 8:00:00"]]
        (NewCache 3600) 0).2.entries = [] :=
  ⟨by decide, rfl, rfl⟩

/-- C5: the spec says that of two accepted rows sharing a station id the
later one's fields end up in the table (last-write-wins, not an error).
Because the header-skip bug skips every line, two well-formed rows for
station 7 yield an empty map: the table does not contain the later row's
fields for id 7. -/
theorem c5_duplicate_rows_yield_empty_table :
    updateStations
        ["intestazione",
         "7;g1;b1;Stradale;n1;a1;c1;p1;la1;lo1",
         "7;g2;b2;Autostradale;n2;a2;c2;p2;la2;lo2"]
      = Except.ok [] :=
  rfl

/-- C6: the spec says a station row whose field count is neither 10 nor
11 makes the whole station-table build fail with `MalformedField`.
Because the header-skip bug skips every line, the malformed-row check is
never reached: a feed with a three-field data row still returns
successfully (with an empty map) instead of an error. -/
theorem c6_malformed_count_not_fatal :
    updateStations ["intestazione", "1;2;3"] = Except.ok [] :=
  rfl

/-- C7: the join loop emits exactly one tuple per price record, in
order; the emitted value is the record's price, the id and flag labels
are the formatted record fields, the fuel type is verbatim, and the five
metadata labels are the matched station's fields on a hit and all empty
on a miss. -/
theorem c7_join_total_and_enriching (stations : List (Int × Station))
    (records : List Record) :
    (joinAndEmit stations records).length = records.length ∧
    (∀ i : Nat, (joinAndEmit stations records)[i]? =
      (records[i]?).map (joinRecord stations)) ∧
    (∀ r : Record,
      (joinRecord stations r).value = r.prezzo ∧
      (joinRecord stations r).idImpianto = formatInt r.idImpianto ∧
      (joinRecord stations r).carburante = r.carburante ∧
      (joinRecord stations r).selfService = formatBool r.selfService ∧
      ((joinRecord stations r).nome, (joinRecord stations r).tipo,
       (joinRecord stations r).comune, (joinRecord stations r).provincia,
       (joinRecord stations r).bandiera) =
        match mapFind? r.idImpianto stations with
        | some s => (s.nome, s.tipo, s.comune, s.provincia, s.bandiera)
        | none => ("", "", "", "", "")) := by
  refine ⟨?_, ?_, ?_⟩
  · induction records with
    | nil => rfl
    | cons r rest ih => simp [joinAndEmit, ih]
  · intro i
    induction records generalizing i with
    | nil => cases i <;> simp [joinAndEmit]
    | cons r rest ih =>
      cases i with
      | zero => simp [joinAndEmit]
      | succ n => simpa [joinAndEmit] using ih n
  · intro r
    refine ⟨rfl, rfl, rfl, rfl, ?_⟩
    cases hm : mapFind? r.idImpianto stations with
    | none => simp [joinRecord, hm]
    | some s => simp [joinRecord, hm]

/-- C8: for an 11-field row the address switch stores
`strings.Join(items[5:6], " | ")`, which is exactly field 5 — the same
address the 10-field handling stores for the same leading fields, so the
duplicate address field is discarded and the join never inserts its
separator. -/
theorem c8_eleven_field_address_is_field_five (items : List String)
    (h : items.length = 11) :
    stationAddress items = Except.ok (items.getD 5 "") ∧
    stationAddress (items.take 10) = Except.ok (items.getD 5 "") := by
  constructor
  · have h5 : (5 : Nat) < items.length := by omega
    have hdt : (items.drop 5).take 1 = [items.getD 5 ""] := drop_take_one_eq items 5 h5
    simp only [stationAddress, h, hdt]
    rfl
  · have hlen : (items.take 10).length = 10 := by
      simp [List.length_take, h]
    have hgd : (items.take 10).getD 5 "" = items.getD 5 "" :=
      getD_take_eq items 10 5 (by omega)
    simp only [stationAddress, hlen, hgd]

/-- Witness for C8 at a concrete 11-field row. -/
theorem c8_eleven_field_address_witness :
    stationAddress
        ["0", "g", "b", "t", "n", "addr", "c", "p", "la", "lo", "dup"] =
      Except.ok
        (["0", "g", "b", "t", "n", "addr", "c", "p", "la", "lo", "dup"].getD 5 "") ∧
    stationAddress
        (["0", "g", "b", "t", "n", "addr", "c", "p", "la", "lo", "dup"].take 10) =
      Except.ok
        (["0", "g", "b", "t", "n", "addr", "c", "p", "la", "lo", "dup"].getD 5 "") :=
  c8_eleven_field_address_is_field_five
    ["0", "g", "b", "t", "n", "addr", "c", "p", "la", "lo", "dup"] rfl

/-- C9: a cache built by `NewCache` has an empty entries map, and the map
stays empty under every finite sequence of `Put` and `Get` calls (a new
entry is constructed but never stored), so every `Get` reports not-found
with a nil sequence regardless of prior `Put`s. -/
theorem c9_cache_stays_empty (ttl : Int) (ops : List CacheOp) :
    (runOps (NewCache ttl) ops).entries = [] ∧
    ∀ (k : String) (now : Int), (runOps (NewCache ttl) ops).get k now = none := by
  have h : (runOps (NewCache ttl) ops).entries = [] :=
    runOps_preserves_empty ops (NewCache ttl) rfl
  exact ⟨h, fun k now => get_of_empty _ k now h⟩

/-- C10: `updateStations` succeeds with an empty map on every input
(`lineno` stays 1, so every line takes the header-skip branch and no row
is parsed or inserted), and a join against an empty table gives every
emitted tuple empty metadata fields. -/
theorem c10_station_table_always_empty (lines : List String) :
    updateStations lines = Except.ok [] ∧
    ∀ r : Record,
      (joinRecord [] r).nome = "" ∧ (joinRecord [] r).tipo = "" ∧
      (joinRecord [] r).comune = "" ∧ (joinRecord [] r).provincia = "" ∧
      (joinRecord [] r).bandiera = "" := by
  refine ⟨updateStationsLoop_header_skip lines [], fun r => ?_⟩
  exact ⟨rfl, rfl, rfl, rfl, rfl⟩

end Carburanti
